import Mathlib

/-
Verification of the DeploymentConfig-to-Deployment conversion core
(`converter.go` / `utils.go` of the openshift-dc-migration tool).

The conversion operates on semi-structured documents (decoded JSON/YAML
trees, Go's `map[string]interface{}`).  We embed those as an inductive
`JValue`; an object is an association list with unique keys (Go map
iteration order is not semantically significant, so the list order is a
canonical presentation).  The `k8s.io/apimachinery` nested accessors
(`NestedMap`, `NestedInt64`, `NestedString`, `NestedBool`, `NestedSlice`,
`SetNestedField`, `SetNestedMap`, `RemoveNestedField`) are embedded with
their value/found/error three-way result, and the converter functions are
translated statement by statement.  The process-wide flag variables of the
Go program (`preserveLabels`, `preserveAnnotations`, `dcSpecificLabels`,
`dcSpecificAnnotations`) become an explicit `Policy` record, and every
internal `time.Now().Format(time.RFC3339)` sample becomes an explicit
`String` parameter of the function that performs the sample.
-/

namespace DCMigration

/-- A decoded JSON/YAML value: Go's `interface{}` restricted to the JSON
universe, as produced by the dynamic client. -/
inductive JValue where
  | vNull  : JValue
  | vBool  : Bool → JValue
  | vInt   : Int → JValue
  | vStr   : String → JValue
  | vArr   : List JValue → JValue
  | vObj   : List (String × JValue) → JValue

/-- A decoded JSON object (`map[string]interface{}`): association list with
unique keys. -/
abbrev JObj := List (String × JValue)

/-- Go map read `m[k]` (first binding wins; keys are unique). -/
def objGet : JObj → String → Option JValue
  | [], _ => none
  | (k', v) :: rest, k => if k' = k then some v else objGet rest k

/-- Go map write `m[k] = v`: replace the binding in place, or append. -/
def objSet : JObj → String → JValue → JObj
  | [], k, v => [(k, v)]
  | (k', v') :: rest, k, v =>
      if k' = k then (k, v) :: rest else (k', v') :: objSet rest k v

/-- Go `delete(m, k)`. -/
def objDel : JObj → String → JObj
  | [], _ => []
  | (k', v') :: rest, k =>
      if k' = k then objDel rest k else (k', v') :: objDel rest k

/-- Result of a `Nested*` accessor from `k8s.io/apimachinery`: an accessor
error (some path component or the final value has the wrong type), absence
(`found == false`), or the found value. -/
inductive Nested (α : Type) where
  | err    : String → Nested α
  | absent : Nested α
  | found  : α → Nested α

/-- `NestedFieldNoCopy`: walk the path; a `nil` value along the way means
absent, a non-map non-nil intermediate is an accessor error. -/
def nestedFieldAux : JValue → List String → Nested JValue
  | v, [] => .found v
  | .vNull, _ :: _ => .absent
  | .vObj m, f :: fs =>
      match objGet m f with
      | none => .absent
      | some v => nestedFieldAux v fs
  | _, _ :: _ => .err "accessor error: wrong type in path"

/-- `NestedFieldNoCopy` starting from an object. -/
def nestedField (m : JObj) (fields : List String) : Nested JValue :=
  nestedFieldAux (.vObj m) fields

/-- `unstructured.NestedMap`. -/
def nestedMap (m : JObj) (fields : List String) : Nested JObj :=
  match nestedField m fields with
  | .err e => .err e
  | .absent => .absent
  | .found (.vObj o) => .found o
  | .found _ => .err "accessor error: value is not a map"

/-- `unstructured.NestedInt64`. -/
def nestedInt64 (m : JObj) (fields : List String) : Nested Int :=
  match nestedField m fields with
  | .err e => .err e
  | .absent => .absent
  | .found (.vInt n) => .found n
  | .found _ => .err "accessor error: value is not an int64"

/-- `unstructured.NestedString`. -/
def nestedString (m : JObj) (fields : List String) : Nested String :=
  match nestedField m fields with
  | .err e => .err e
  | .absent => .absent
  | .found (.vStr s) => .found s
  | .found _ => .err "accessor error: value is not a string"

/-- `unstructured.NestedBool`. -/
def nestedBool (m : JObj) (fields : List String) : Nested Bool :=
  match nestedField m fields with
  | .err e => .err e
  | .absent => .absent
  | .found (.vBool b) => .found b
  | .found _ => .err "accessor error: value is not a bool"

/-- `unstructured.NestedSlice`. -/
def nestedSlice (m : JObj) (fields : List String) : Nested (List JValue) :=
  match nestedField m fields with
  | .err e => .err e
  | .absent => .absent
  | .found (.vArr xs) => .found xs
  | .found _ => .err "accessor error: value is not a slice"

/-- `unstructured.SetNestedField`: create intermediate maps as needed; an
intermediate of non-map type is an error. -/
def setNestedField : JObj → JValue → List String → Except String JObj
  | _, _, [] => .error "accessor error: empty path"
  | m, v, [f] => .ok (objSet m f v)
  | m, v, f :: f2 :: fs =>
      match objGet m f with
      | some (.vObj m2) =>
          match setNestedField m2 v (f2 :: fs) with
          | .error e => .error e
          | .ok m2' => .ok (objSet m f (.vObj m2'))
      | some _ => .error "accessor error: intermediate is not a map"
      | none =>
          match setNestedField [] v (f2 :: fs) with
          | .error e => .error e
          | .ok m2' => .ok (objSet m f (.vObj m2'))

/-- `unstructured.SetNestedMap`. -/
def setNestedMap (m : JObj) (value : JObj) (fields : List String) :
    Except String JObj :=
  setNestedField m (.vObj value) fields

/-- `unstructured.RemoveNestedField`: walk intermediates, stopping silently
when a component is missing or is not a map, then delete the final key. -/
def removeNestedField : JObj → List String → JObj
  | m, [] => m
  | m, [f] => objDel m f
  | m, f :: f2 :: fs =>
      match objGet m f with
      | some (.vObj m2) => objSet m f (.vObj (removeNestedField m2 (f2 :: fs)))
      | _ => m

/-! ## The conversion policy

The Go program keeps these as process-wide variables set by flag parsing
(`preserveLabels`, `preserveAnnotations`) and by `run()`
(`dcSpecificLabels`, `dcSpecificAnnotations`).  They are threaded here as
an explicit record. -/

/-- The flag/configuration state read by the converter. -/
structure Policy where
  preserveLabels : Bool
  preserveAnnotations : Bool
  dcSpecificLabels : List String
  dcSpecificAnnotations : List String

/-- `contains` from `utils.go`. -/
def contains : List String → String → Bool
  | [], _ => false
  | x :: xs, s => if x = s then true else contains xs s

/-- The default policy assembled by `run()` in the program (flags default to
true; the strip lists are hard-coded). -/
def defaultPolicy : Policy :=
  { preserveLabels := true
    preserveAnnotations := true
    dcSpecificLabels := ["openshift.io/deployment-config.name"]
    dcSpecificAnnotations :=
      ["openshift.io/deployment-config.name",
       "openshift.io/deployment-config.latest-version",
       "openshift.io/deployment.phase"] }

/-- The provenance-marker annotation key injected by `copyMetadata`. -/
def generatedByKey : String := "openshift.io/generated-by"

/-- The provenance-marker annotation value injected by `copyMetadata`. -/
def generatedByValue : String := "deploymentconfig-to-deployment-migration"

/-- The migration-timestamp annotation key injected by `copyMetadata`. -/
def migrationTimestampKey : String := "openshift.io/migration-timestamp"

/-- The legacy linkage key stripped from selectors and template labels. -/
def legacyKey : String := "deploymentconfig"

/-- Go map read `m[k]` used as an expression: a missing key reads as the
zero value `nil`. -/
def jGetD (m : JObj) (k : String) : JValue :=
  (objGet m k).getD .vNull

/-! ## converter.go -/

/-- `copyMetadata` lines 152-154: the fresh `newMetadata` map with `name`
and `namespace` copied via Go map reads (a missing key reads as `nil`). -/
def baseMetadata (metadata : JObj) : JObj :=
  objSet (objSet [] "name" (jGetD metadata "name"))
    "namespace" (jGetD metadata "namespace")

/-- `copyMetadata` lines 156-168: when `preserveLabels`, copy the labels
map (when it is present as a map) with every `dcSpecificLabels` key
removed, but only when the filtered map is non-empty. -/
def withLabels (metadata : JObj) (p : Policy) : JObj :=
  if p.preserveLabels then
    match objGet metadata "labels" with
    | some (.vObj labels) =>
        let newLabels := labels.filter (fun kv => !(contains p.dcSpecificLabels kv.1))
        if newLabels.length > 0 then
          objSet (baseMetadata metadata) "labels" (.vObj newLabels)
        else baseMetadata metadata
    | _ => baseMetadata metadata
  else baseMetadata metadata

/-- `copyMetadata` lines 170-179: the annotations the `newAnnotations` map
starts from — the source annotations (when present as a map) filtered by
`dcSpecificAnnotations` when `preserveAnnotations`, else empty. -/
def sourceAnnotations (metadata : JObj) (p : Policy) : JObj :=
  if p.preserveAnnotations then
    match objGet metadata "annotations" with
    | some (.vObj annotations) =>
        annotations.filter (fun kv => !(contains p.dcSpecificAnnotations kv.1))
    | _ => []
  else []

/-- `copyMetadata` lines 170-182: the final `newAnnotations` map, with the
provenance marker and the migration timestamp injected unconditionally.
`now` stands for the value of `time.Now().Format(time.RFC3339)` sampled at
line 182. -/
def annotationsOf (metadata : JObj) (p : Policy) (now : String) : JObj :=
  objSet (objSet (sourceAnnotations metadata p) generatedByKey (.vStr generatedByValue))
    migrationTimestampKey (.vStr now)

/-- The complete `newMetadata` map built by `copyMetadata` (converter.go
lines 152-183). -/
def sanitizeMetadata (metadata : JObj) (p : Policy) (now : String) : JObj :=
  objSet (withLabels metadata p) "annotations" (.vObj (annotationsOf metadata p now))

/-- `copyMetadata` (converter.go lines 143-186). -/
def copyMetadata (dc deployment : JObj) (p : Policy) (now : String) :
    Except String JObj :=
  match nestedMap dc ["metadata"] with
  | .err e => .error ("error getting metadata: " ++ e)
  | .absent => .error "metadata not found in DeploymentConfig"
  | .found metadata =>
      setNestedMap deployment (sanitizeMetadata metadata p now) ["metadata"]

/-- `setReplicas` (converter.go lines 216-225). -/
def setReplicas (spec deployment : JObj) : Except String JObj :=
  match nestedInt64 spec ["replicas"] with
  | .err e => .error ("error getting replicas: " ++ e)
  | .absent => setNestedField deployment (.vInt 1) ["spec", "replicas"]
  | .found replicas => setNestedField deployment (.vInt replicas) ["spec", "replicas"]

/-- `setSelector` (converter.go lines 227-239): the selector map is
required, the legacy linkage key is deleted from it, and the result is
wrapped under `matchLabels`. -/
def setSelector (spec deployment : JObj) : Except String JObj :=
  match nestedMap spec ["selector"] with
  | .err e => .error ("error getting selector: " ++ e)
  | .absent => .error "selector not found in DeploymentConfig spec"
  | .found selector =>
      setNestedMap deployment [("matchLabels", .vObj (objDel selector legacyKey))]
        ["spec", "selector"]

/-- The in-place modification performed by `setTemplate` (converter.go
lines 250-254) on the deep-copied template: if the template metadata is a
map holding a labels map, delete the legacy linkage key from the labels. -/
def stripTemplate (template : JObj) : JObj :=
  match objGet template "metadata" with
  | some (.vObj tm) =>
      match objGet tm "labels" with
      | some (.vObj labels) =>
          objSet template "metadata"
            (.vObj (objSet tm "labels" (.vObj (objDel labels legacyKey))))
      | _ => template
  | _ => template

/-- `setTemplate` (converter.go lines 241-257). -/
def setTemplate (spec deployment : JObj) : Except String JObj :=
  match nestedMap spec ["template"] with
  | .err e => .error ("error getting template: " ++ e)
  | .absent => .error "template not found in DeploymentConfig spec"
  | .found template =>
      setNestedMap deployment (stripTemplate template) ["spec", "template"]

/-- The `strategyType` read at converter.go line 269: `NestedString` with
err and found discarded, so the zero value stands for absence or a
non-string value. -/
def strategyTypeOf (strategy : JObj) : String :=
  match nestedString strategy ["type"] with
  | .found s => s
  | _ => ""

/-- The `updateStrategy` map of the `Rolling` branch (converter.go lines
275-281): `maxUnavailable` then `maxSurge`, each copied only if present. -/
def rollingUpdateOf (rollingParams : JObj) : JObj :=
  let us1 : JObj :=
    match objGet rollingParams "maxUnavailable" with
    | some v => objSet [] "maxUnavailable" v
    | none => []
  match objGet rollingParams "maxSurge" with
  | some v => objSet us1 "maxSurge" v
  | none => us1

/-- The `deploymentStrategy` map built by `setStrategy` (converter.go lines
268-288): `Rolling` maps to `RollingUpdate` with a `rollingUpdate` entry
exactly when `rollingParams` is present as a map; `Recreate` maps to
itself with no further entries; anything else falls back to
`RollingUpdate` with no parameters. -/
def deploymentStrategyOf (strategy : JObj) : JObj :=
  if strategyTypeOf strategy = "Rolling" then
    match objGet strategy "rollingParams" with
    | some (.vObj rollingParams) =>
        objSet [("type", .vStr "RollingUpdate")] "rollingUpdate"
          (.vObj (rollingUpdateOf rollingParams))
    | _ => [("type", .vStr "RollingUpdate")]
  else if strategyTypeOf strategy = "Recreate" then
    [("type", .vStr "Recreate")]
  else
    [("type", .vStr "RollingUpdate")]

/-- `setStrategy` (converter.go lines 259-291): an absent strategy map is
not an error and leaves the deployment untouched. -/
def setStrategy (spec deployment : JObj) : Except String JObj :=
  match nestedMap spec ["strategy"] with
  | .err e => .error ("error getting strategy: " ++ e)
  | .absent => .ok deployment
  | .found strategy =>
      setNestedMap deployment (deploymentStrategyOf strategy) ["spec", "strategy"]

/-- `convertSpec` (converter.go lines 188-214). -/
def convertSpec (dc deployment : JObj) : Except String JObj :=
  match nestedMap dc ["spec"] with
  | .err e => .error ("error getting spec: " ++ e)
  | .absent => .error "spec not found in DeploymentConfig"
  | .found spec =>
      match setReplicas spec deployment with
      | .error e => .error ("failed to set replicas: " ++ e)
      | .ok d1 =>
          match setSelector spec d1 with
          | .error e => .error ("failed to set selector: " ++ e)
          | .ok d2 =>
              match setTemplate spec d2 with
              | .error e => .error ("failed to set template: " ++ e)
              | .ok d3 =>
                  match setStrategy spec d3 with
                  | .error e => .error ("failed to set strategy: " ++ e)
                  | .ok d4 => .ok d4

/-- `cleanupDeploymentConfig` (converter.go lines 293-297). -/
def cleanupDeploymentConfig (deployment : JObj) : JObj :=
  removeNestedField
    (removeNestedField
      (removeNestedField deployment ["spec", "triggers"])
      ["spec", "test"])
    ["spec", "paused"]

/-- The fresh deployment shell built at converter.go lines 123-128. -/
def newDeploymentBase : JObj :=
  [("apiVersion", .vStr "apps/v1"), ("kind", .vStr "Deployment")]

/-- `convertDCtoDeployment` (converter.go lines 122-141): the Go function
returns `(nil, err)` on every error path, embedded as `Except`. -/
def convertDCtoDeployment (dc : JObj) (p : Policy) (now : String) :
    Except String JObj :=
  match copyMetadata dc newDeploymentBase p now with
  | .error e => .error ("failed to copy metadata: " ++ e)
  | .ok d1 =>
      match convertSpec dc d1 with
      | .error e => .error ("failed to convert spec: " ++ e)
      | .ok d2 => .ok (cleanupDeploymentConfig d2)

/-! ## utils.go predicate extractors -/

/-- `hasTriggers` (utils.go lines 97-100): err and found are discarded, a
nil slice has length 0. -/
def hasTriggers (dc : JObj) : Bool :=
  match nestedSlice dc ["spec", "triggers"] with
  | .found triggers => triggers.length > 0
  | _ => false

/-- `hasLifecycleHooks` (utils.go lines 102-107): each hook is probed with
`NestedMap`, whose found flag is true only for a present map value. -/
def hasLifecycleHooks (dc : JObj) : Bool :=
  let preHookFound :=
    match nestedMap dc ["spec", "strategy", "recreateParams", "pre"] with
    | .found _ => true
    | _ => false
  let midHookFound :=
    match nestedMap dc ["spec", "strategy", "recreateParams", "mid"] with
    | .found _ => true
    | _ => false
  let postHookFound :=
    match nestedMap dc ["spec", "strategy", "recreateParams", "post"] with
    | .found _ => true
    | _ => false
  preHookFound || midHookFound || postHookFound

/-- `hasAutoRollbacks` (utils.go lines 109-112): err and found are
discarded, the zero value is false. -/
def hasAutoRollbacks (dc : JObj) : Bool :=
  match nestedBool dc ["spec", "strategy", "rollingParams", "autoRollbackEnabled"] with
  | .found autoRollback => autoRollback
  | _ => false

/-- `usesCustomStrategies` (utils.go lines 114-117): err and found are
discarded, the zero value is the empty string. -/
def usesCustomStrategies (dc : JObj) : Bool :=
  (match nestedString dc ["spec", "strategy", "type"] with
   | .found s => s
   | _ => "") = "Custom"

/-! ## processProject (converter.go lines 53-120), per-DC body -/

/-- The `ConversionInfo` record (declared beside `converter.go`, populated
at lines 79-87). -/
structure ConversionInfo where
  Timestamp : String
  Namespace : String
  DeploymentConfigName : String
  HasTriggers : Bool
  HasLifecycleHooks : Bool
  HasAutoRollbacks : Bool
  UsesCustomStrategies : Bool
deriving DecidableEq, Repr

/-- `dc.GetName()`: `NestedString(obj, "metadata", "name")` with the zero
value on absence or error. -/
def dcGetName (dc : JObj) : String :=
  match nestedString dc ["metadata", "name"] with
  | .found s => s
  | _ => ""

/-- The per-DeploymentConfig body of `processProject` (converter.go lines
79-96): the `ConversionInfo` is built from the original source document
with a wall-clock sample (`ts1`, line 80), then the conversion runs with
its own wall-clock sample (`ts2`, taken inside `copyMetadata` at line
182). -/
def processDC (dc : JObj) (p : Policy) (ns ts1 ts2 : String) :
    ConversionInfo × Except String JObj :=
  ({ Timestamp := ts1
     Namespace := ns
     DeploymentConfigName := dcGetName dc
     HasTriggers := hasTriggers dc
     HasLifecycleHooks := hasLifecycleHooks dc
     HasAutoRollbacks := hasAutoRollbacks dc
     UsesCustomStrategies := usesCustomStrategies dc },
   convertDCtoDeployment dc p ts2)

/-! ## Association-list lemmas -/

theorem objGet_objSet_self (m : JObj) (k : String) (v : JValue) :
    objGet (objSet m k v) k = some v := by
  induction m with
  | nil => simp [objGet, objSet]
  | cons kv rest ih =>
      obtain ⟨k', v'⟩ := kv
      by_cases h : k' = k <;> simp [objGet, objSet, h, ih]

theorem objGet_objSet_ne (m : JObj) (k k' : String) (v : JValue)
    (h : k' ≠ k) : objGet (objSet m k v) k' = objGet m k' := by
  induction m with
  | nil => simp [objGet, objSet, Ne.symm h]
  | cons kv rest ih =>
      obtain ⟨k0, v0⟩ := kv
      by_cases h0 : k0 = k
      · subst h0
        simp [objGet, objSet, Ne.symm h]
      · simp only [objSet, if_neg h0]
        by_cases h1 : k0 = k' <;> simp [objGet, h1, ih]

theorem objGet_objDel_self (m : JObj) (k : String) :
    objGet (objDel m k) k = none := by
  induction m with
  | nil => simp [objGet, objDel]
  | cons kv rest ih =>
      obtain ⟨k', v'⟩ := kv
      by_cases h : k' = k <;> simp [objGet, objDel, h, ih]

theorem objGet_objDel_ne (m : JObj) (k k' : String) (h : k' ≠ k) :
    objGet (objDel m k) k' = objGet m k' := by
  induction m with
  | nil => simp [objDel]
  | cons kv rest ih =>
      obtain ⟨k0, v0⟩ := kv
      by_cases h0 : k0 = k
      · subst h0
        simp [objGet, objDel, Ne.symm h, ih]
      · by_cases h1 : k0 = k' <;> simp [objGet, objDel, h0, h1, h, ih]

theorem objDel_objSet_self (m : JObj) (k : String) (v : JValue) :
    objDel (objSet m k v) k = objDel m k := by
  induction m with
  | nil => simp [objDel, objSet]
  | cons kv rest ih =>
      obtain ⟨k', v'⟩ := kv
      by_cases h : k' = k <;> simp [objDel, objSet, h, ih]

theorem contains_iff_mem (l : List String) (s : String) :
    contains l s = true ↔ s ∈ l := by
  induction l with
  | nil => simp [contains]
  | cons x xs ih =>
      by_cases h : x = s
      · subst h
        simp [contains]
      · simp [contains, h, ih, Ne.symm h]

theorem objGet_filter_strip (strip : List String) (m : JObj) (k : String) :
    objGet (m.filter (fun kv => !(contains strip kv.1))) k =
      if contains strip k then none else objGet m k := by
  induction m with
  | nil => simp [objGet]
  | cons kv rest ih =>
      obtain ⟨k0, v0⟩ := kv
      by_cases hs : contains strip k0 = true
      · simp only [List.filter, hs]
        by_cases hk : k0 = k
        · subst hk
          simp [hs, ih]
        · simp [objGet, hk, ih]
      · simp only [List.filter, hs]
        by_cases hk : k0 = k
        · subst hk
          simp [objGet, hs]
        · simp [objGet, hk, ih]

theorem objSet_objSet_self (m : JObj) (k : String) (v w : JValue) :
    objSet (objSet m k v) k w = objSet m k w := by
  induction m with
  | nil => simp [objSet]
  | cons kv rest ih =>
      obtain ⟨k', v'⟩ := kv
      by_cases h : k' = k <;> simp [objSet, h, ih]

theorem nestedField_single (m : JObj) (k : String) :
    nestedField m [k] =
      match objGet m k with
      | none => .absent
      | some v => .found v := by
  simp only [nestedField, nestedFieldAux]

/-! ## Lookup lemmas for the sanitized metadata -/

theorem baseMetadata_get_name (metadata : JObj) :
    objGet (baseMetadata metadata) "name" = some (jGetD metadata "name") := by
  unfold baseMetadata
  rw [objGet_objSet_ne _ _ _ _ (by decide), objGet_objSet_self]

theorem baseMetadata_get_labels (metadata : JObj) :
    objGet (baseMetadata metadata) "labels" = none := by
  unfold baseMetadata
  rw [objGet_objSet_ne _ _ _ _ (by decide), objGet_objSet_ne _ _ _ _ (by decide)]
  rfl

theorem sanitizeMetadata_get_annotations (metadata : JObj) (p : Policy) (now : String) :
    objGet (sanitizeMetadata metadata p now) "annotations" =
      some (.vObj (annotationsOf metadata p now)) := by
  unfold sanitizeMetadata
  exact objGet_objSet_self _ _ _

theorem sanitizeMetadata_get_ne (metadata : JObj) (p : Policy) (now k : String)
    (h : k ≠ "annotations") :
    objGet (sanitizeMetadata metadata p now) k = objGet (withLabels metadata p) k := by
  unfold sanitizeMetadata
  exact objGet_objSet_ne _ _ _ _ h

theorem withLabels_get_ne (metadata : JObj) (p : Policy) (k : String)
    (h : k ≠ "labels") :
    objGet (withLabels metadata p) k = objGet (baseMetadata metadata) k := by
  unfold withLabels
  by_cases hp : p.preserveLabels
  · simp only [hp, if_true]
    cases hl : objGet metadata "labels" with
    | none => rfl
    | some v =>
        cases v with
        | vObj labels =>
            by_cases hn :
                (labels.filter (fun kv => !(contains p.dcSpecificLabels kv.1))).length > 0
            · simp only [hn, if_true]
              exact objGet_objSet_ne _ _ _ _ h
            · simp only [hn, if_false]
        | vNull => rfl
        | vBool b => rfl
        | vInt n => rfl
        | vStr s => rfl
        | vArr xs => rfl
  · simp [hp]

theorem annotationsOf_get_ts (metadata : JObj) (p : Policy) (now : String) :
    objGet (annotationsOf metadata p now) migrationTimestampKey = some (.vStr now) := by
  unfold annotationsOf
  exact objGet_objSet_self _ _ _

theorem annotationsOf_get_gen (metadata : JObj) (p : Policy) (now : String) :
    objGet (annotationsOf metadata p now) generatedByKey =
      some (.vStr generatedByValue) := by
  unfold annotationsOf
  rw [objGet_objSet_ne _ _ _ _ (by decide)]
  exact objGet_objSet_self _ _ _

theorem annotationsOf_get_other (metadata : JObj) (p : Policy) (now k : String)
    (h1 : k ≠ generatedByKey) (h2 : k ≠ migrationTimestampKey) :
    objGet (annotationsOf metadata p now) k =
      objGet (sourceAnnotations metadata p) k := by
  unfold annotationsOf
  rw [objGet_objSet_ne _ _ _ _ h2, objGet_objSet_ne _ _ _ _ h1]

/-! ## Lookup lemmas for the mapped rolling-update parameters -/

theorem rollingUpdateOf_get_mu (rollingParams : JObj) :
    objGet (rollingUpdateOf rollingParams) "maxUnavailable" =
      objGet rollingParams "maxUnavailable" := by
  unfold rollingUpdateOf
  cases hmu : objGet rollingParams "maxUnavailable" with
  | none =>
      cases hms : objGet rollingParams "maxSurge" with
      | none => rfl
      | some v => rw [objGet_objSet_ne _ _ _ _ (by decide)]; rfl
  | some v =>
      cases hms : objGet rollingParams "maxSurge" with
      | none => simp only []; exact objGet_objSet_self _ _ _
      | some w =>
          rw [objGet_objSet_ne _ _ _ _ (by decide)]
          exact objGet_objSet_self _ _ _

theorem rollingUpdateOf_get_ms (rollingParams : JObj) :
    objGet (rollingUpdateOf rollingParams) "maxSurge" =
      objGet rollingParams "maxSurge" := by
  unfold rollingUpdateOf
  cases hmu : objGet rollingParams "maxUnavailable" with
  | none =>
      cases hms : objGet rollingParams "maxSurge" with
      | none => rfl
      | some v => exact objGet_objSet_self _ _ _
  | some v =>
      cases hms : objGet rollingParams "maxSurge" with
      | none => rw [objGet_objSet_ne _ _ _ _ (by decide)]; rfl
      | some w => exact objGet_objSet_self _ _ _

theorem rollingUpdateOf_get_other (rollingParams : JObj) (k : String)
    (h1 : k ≠ "maxUnavailable") (h2 : k ≠ "maxSurge") :
    objGet (rollingUpdateOf rollingParams) k = none := by
  unfold rollingUpdateOf
  cases hmu : objGet rollingParams "maxUnavailable" with
  | none =>
      cases hms : objGet rollingParams "maxSurge" with
      | none => rfl
      | some v => rw [objGet_objSet_ne _ _ _ _ h2]; rfl
  | some v =>
      cases hms : objGet rollingParams "maxSurge" with
      | none => rw [objGet_objSet_ne _ _ _ _ h1]; rfl
      | some w => rw [objGet_objSet_ne _ _ _ _ h2, objGet_objSet_ne _ _ _ _ h1]; rfl

/-! ## Evaluation lemmas for `convertDCtoDeployment`

Each lemma fixes the result of the conversion under explicit assumptions
on the nested accessor results, following the control flow of
`convertDCtoDeployment` branch by branch. -/

/-- The target document produced on the success path: the fresh shell, the
sanitized metadata, and the mapped spec (with the strategy entry present
exactly when the source strategy map was present). -/
def assembleTarget (meta : JObj) (p : Policy) (now : String) (r : Int)
    (sel tmpl : JObj) (strat : Option JObj) : JObj :=
  [("apiVersion", .vStr "apps/v1"), ("kind", .vStr "Deployment"),
   ("metadata", .vObj (sanitizeMetadata meta p now)),
   ("spec", .vObj
     ([("replicas", .vInt r),
       ("selector", .vObj [("matchLabels", .vObj (objDel sel legacyKey))]),
       ("template", .vObj (stripTemplate tmpl))] ++
      (match strat with
       | some s => [("strategy", .vObj (deploymentStrategyOf s))]
       | none => [])))]

/-- Shorthand for the two ways `setReplicas` succeeds: the field is absent
and defaults to 1, or it is present as an int64. -/
def replicasCase (spec : JObj) (r : Int) : Prop :=
  nestedInt64 spec ["replicas"] = .absent ∧ r = 1 ∨
    nestedInt64 spec ["replicas"] = .found r

theorem convert_eval_metadata_err (dc : JObj) (p : Policy) (now e : String)
    (hm : nestedMap dc ["metadata"] = .err e) :
    convertDCtoDeployment dc p now =
      .error ("failed to copy metadata: error getting metadata: " ++ e) := by
  simp only [convertDCtoDeployment, copyMetadata, hm]
  rfl

theorem convert_eval_metadata_absent (dc : JObj) (p : Policy) (now : String)
    (hm : nestedMap dc ["metadata"] = .absent) :
    convertDCtoDeployment dc p now =
      .error "failed to copy metadata: metadata not found in DeploymentConfig" := by
  simp only [convertDCtoDeployment, copyMetadata, hm]
  rfl

theorem convert_eval_spec_err (dc : JObj) (p : Policy) (now : String)
    (meta : JObj) (e : String)
    (hm : nestedMap dc ["metadata"] = .found meta)
    (hs : nestedMap dc ["spec"] = .err e) :
    convertDCtoDeployment dc p now =
      .error ("failed to convert spec: error getting spec: " ++ e) := by
  simp only [convertDCtoDeployment, copyMetadata, convertSpec, hm, hs]
  rfl

theorem convert_eval_spec_absent (dc : JObj) (p : Policy) (now : String)
    (meta : JObj)
    (hm : nestedMap dc ["metadata"] = .found meta)
    (hs : nestedMap dc ["spec"] = .absent) :
    convertDCtoDeployment dc p now =
      .error "failed to convert spec: spec not found in DeploymentConfig" := by
  simp only [convertDCtoDeployment, copyMetadata, convertSpec, hm, hs]
  rfl

theorem convert_eval_replicas_err (dc : JObj) (p : Policy) (now : String)
    (meta spec : JObj) (e : String)
    (hm : nestedMap dc ["metadata"] = .found meta)
    (hs : nestedMap dc ["spec"] = .found spec)
    (hr : nestedInt64 spec ["replicas"] = .err e) :
    convertDCtoDeployment dc p now =
      .error ("failed to convert spec: failed to set replicas: error getting replicas: " ++ e) := by
  simp only [convertDCtoDeployment, copyMetadata, convertSpec, setReplicas, hm, hs, hr]
  rfl

theorem convert_eval_selector_err (dc : JObj) (p : Policy) (now : String)
    (meta spec : JObj) (r : Int) (e : String)
    (hm : nestedMap dc ["metadata"] = .found meta)
    (hs : nestedMap dc ["spec"] = .found spec)
    (hr : replicasCase spec r)
    (hsel : nestedMap spec ["selector"] = .err e) :
    convertDCtoDeployment dc p now =
      .error ("failed to convert spec: failed to set selector: error getting selector: " ++ e) := by
  rcases hr with ⟨hr, rfl⟩ | hr <;>
    simp only [convertDCtoDeployment, copyMetadata, convertSpec, setReplicas,
      setSelector, hm, hs, hr, hsel] <;>
    rfl

theorem convert_eval_selector_absent (dc : JObj) (p : Policy) (now : String)
    (meta spec : JObj) (r : Int)
    (hm : nestedMap dc ["metadata"] = .found meta)
    (hs : nestedMap dc ["spec"] = .found spec)
    (hr : replicasCase spec r)
    (hsel : nestedMap spec ["selector"] = .absent) :
    convertDCtoDeployment dc p now =
      .error "failed to convert spec: failed to set selector: selector not found in DeploymentConfig spec" := by
  rcases hr with ⟨hr, rfl⟩ | hr <;>
    simp only [convertDCtoDeployment, copyMetadata, convertSpec, setReplicas,
      setSelector, hm, hs, hr, hsel] <;>
    rfl

theorem convert_eval_template_err (dc : JObj) (p : Policy) (now : String)
    (meta spec : JObj) (r : Int) (sel : JObj) (e : String)
    (hm : nestedMap dc ["metadata"] = .found meta)
    (hs : nestedMap dc ["spec"] = .found spec)
    (hr : replicasCase spec r)
    (hsel : nestedMap spec ["selector"] = .found sel)
    (htm : nestedMap spec ["template"] = .err e) :
    convertDCtoDeployment dc p now =
      .error ("failed to convert spec: failed to set template: error getting template: " ++ e) := by
  rcases hr with ⟨hr, rfl⟩ | hr <;>
    simp only [convertDCtoDeployment, copyMetadata, convertSpec, setReplicas,
      setSelector, setTemplate, hm, hs, hr, hsel, htm] <;>
    rfl

theorem convert_eval_template_absent (dc : JObj) (p : Policy) (now : String)
    (meta spec : JObj) (r : Int) (sel : JObj)
    (hm : nestedMap dc ["metadata"] = .found meta)
    (hs : nestedMap dc ["spec"] = .found spec)
    (hr : replicasCase spec r)
    (hsel : nestedMap spec ["selector"] = .found sel)
    (htm : nestedMap spec ["template"] = .absent) :
    convertDCtoDeployment dc p now =
      .error "failed to convert spec: failed to set template: template not found in DeploymentConfig spec" := by
  rcases hr with ⟨hr, rfl⟩ | hr <;>
    simp only [convertDCtoDeployment, copyMetadata, convertSpec, setReplicas,
      setSelector, setTemplate, hm, hs, hr, hsel, htm] <;>
    rfl

theorem convert_eval_strategy_err (dc : JObj) (p : Policy) (now : String)
    (meta spec : JObj) (r : Int) (sel tmpl : JObj) (e : String)
    (hm : nestedMap dc ["metadata"] = .found meta)
    (hs : nestedMap dc ["spec"] = .found spec)
    (hr : replicasCase spec r)
    (hsel : nestedMap spec ["selector"] = .found sel)
    (htm : nestedMap spec ["template"] = .found tmpl)
    (hst : nestedMap spec ["strategy"] = .err e) :
    convertDCtoDeployment dc p now =
      .error ("failed to convert spec: failed to set strategy: error getting strategy: " ++ e) := by
  rcases hr with ⟨hr, rfl⟩ | hr <;>
    simp only [convertDCtoDeployment, copyMetadata, convertSpec, setReplicas,
      setSelector, setTemplate, setStrategy, hm, hs, hr, hsel, htm, hst] <;>
    rfl

theorem convert_eval_ok_noStrategy (dc : JObj) (p : Policy) (now : String)
    (meta spec : JObj) (r : Int) (sel tmpl : JObj)
    (hm : nestedMap dc ["metadata"] = .found meta)
    (hs : nestedMap dc ["spec"] = .found spec)
    (hr : replicasCase spec r)
    (hsel : nestedMap spec ["selector"] = .found sel)
    (htm : nestedMap spec ["template"] = .found tmpl)
    (hst : nestedMap spec ["strategy"] = .absent) :
    convertDCtoDeployment dc p now =
      .ok (assembleTarget meta p now r sel tmpl none) := by
  rcases hr with ⟨hr, rfl⟩ | hr <;>
    simp only [convertDCtoDeployment, copyMetadata, convertSpec, setReplicas,
      setSelector, setTemplate, setStrategy, hm, hs, hr, hsel, htm, hst] <;>
    rfl

theorem convert_eval_ok_strategy (dc : JObj) (p : Policy) (now : String)
    (meta spec : JObj) (r : Int) (sel tmpl strat : JObj)
    (hm : nestedMap dc ["metadata"] = .found meta)
    (hs : nestedMap dc ["spec"] = .found spec)
    (hr : replicasCase spec r)
    (hsel : nestedMap spec ["selector"] = .found sel)
    (htm : nestedMap spec ["template"] = .found tmpl)
    (hst : nestedMap spec ["strategy"] = .found strat) :
    convertDCtoDeployment dc p now =
      .ok (assembleTarget meta p now r sel tmpl (some strat)) := by
  rcases hr with ⟨hr, rfl⟩ | hr <;>
    simp only [convertDCtoDeployment, copyMetadata, convertSpec, setReplicas,
      setSelector, setTemplate, setStrategy, hm, hs, hr, hsel, htm, hst] <;>
    rfl

/-- Inversion: a successful conversion pins down every extraction result
and the exact shape of the target document. -/
theorem convert_ok_cases (dc : JObj) (p : Policy) (now : String) (t : JObj)
    (h : convertDCtoDeployment dc p now = .ok t) :
    ∃ meta spec r sel tmpl,
      nestedMap dc ["metadata"] = .found meta ∧
      nestedMap dc ["spec"] = .found spec ∧
      replicasCase spec r ∧
      nestedMap spec ["selector"] = .found sel ∧
      nestedMap spec ["template"] = .found tmpl ∧
      ((nestedMap spec ["strategy"] = .absent ∧
          t = assembleTarget meta p now r sel tmpl none) ∨
       (∃ strat, nestedMap spec ["strategy"] = .found strat ∧
          t = assembleTarget meta p now r sel tmpl (some strat))) := by
  rcases hmx : nestedMap dc ["metadata"] with e | _ | meta
  · rw [convert_eval_metadata_err dc p now e hmx] at h
    simp at h
  · rw [convert_eval_metadata_absent dc p now hmx] at h
    simp at h
  rcases hsx : nestedMap dc ["spec"] with e | _ | spec
  · rw [convert_eval_spec_err dc p now meta e hmx hsx] at h
    simp at h
  · rw [convert_eval_spec_absent dc p now meta hmx hsx] at h
    simp at h
  have hrx : ∃ r : Int, replicasCase spec r := by
    rcases hrr : nestedInt64 spec ["replicas"] with e | _ | r
    · rw [convert_eval_replicas_err dc p now meta spec e hmx hsx hrr] at h
      simp at h
    · exact ⟨1, Or.inl ⟨hrr, rfl⟩⟩
    · exact ⟨r, Or.inr hrr⟩
  obtain ⟨r, hr⟩ := hrx
  rcases hselx : nestedMap spec ["selector"] with e | _ | sel
  · rw [convert_eval_selector_err dc p now meta spec r e hmx hsx hr hselx] at h
    simp at h
  · rw [convert_eval_selector_absent dc p now meta spec r hmx hsx hr hselx] at h
    simp at h
  rcases htmx : nestedMap spec ["template"] with e | _ | tmpl
  · rw [convert_eval_template_err dc p now meta spec r sel e hmx hsx hr hselx htmx] at h
    simp at h
  · rw [convert_eval_template_absent dc p now meta spec r sel hmx hsx hr hselx htmx] at h
    simp at h
  rcases hstx : nestedMap spec ["strategy"] with e | _ | strat
  · rw [convert_eval_strategy_err dc p now meta spec r sel tmpl e hmx hsx hr hselx htmx hstx] at h
    simp at h
  · rw [convert_eval_ok_noStrategy dc p now meta spec r sel tmpl hmx hsx hr hselx htmx hstx] at h
    simp only [Except.ok.injEq] at h
    exact ⟨meta, spec, r, sel, tmpl, rfl, rfl, hr, hselx, htmx, Or.inl ⟨hstx, h.symm⟩⟩
  · rw [convert_eval_ok_strategy dc p now meta spec r sel tmpl strat hmx hsx hr hselx htmx hstx] at h
    simp only [Except.ok.injEq] at h
    exact ⟨meta, spec, r, sel, tmpl, rfl, rfl, hr, hselx, htmx,
      Or.inr ⟨strat, hstx, h.symm⟩⟩

/-! ## Sample documents used by witnesses and counterexamples -/

/-- A representative DeploymentConfig document, after the pattern of the
repository's own test fixture, extended with labels, annotations, the
legacy linkage key, and a Rolling strategy. -/
def sampleDC : JObj :=
  [("apiVersion", .vStr "apps.openshift.io/v1"),
   ("kind", .vStr "DeploymentConfig"),
   ("metadata", .vObj
     [("name", .vStr "test-dc"), ("namespace", .vStr "test-namespace"),
      ("labels", .vObj
        [("app", .vStr "test-app"),
         ("openshift.io/deployment-config.name", .vStr "test-dc")]),
      ("annotations", .vObj
        [("team", .vStr "payments"),
         ("openshift.io/deployment.phase", .vStr "Complete")])]),
   ("spec", .vObj
     [("replicas", .vInt 3),
      ("selector", .vObj
        [("app", .vStr "test-app"), ("deploymentconfig", .vStr "test-dc")]),
      ("template", .vObj
        [("metadata", .vObj
          [("labels", .vObj
            [("app", .vStr "test-app"), ("deploymentconfig", .vStr "test-dc")])]),
         ("spec", .vObj
          [("containers", .vArr
            [.vObj [("name", .vStr "test-container"),
                    ("image", .vStr "test-image:latest")]])])]),
      ("strategy", .vObj
        [("type", .vStr "Rolling"),
         ("rollingParams", .vObj [("maxUnavailable", .vStr "25%")])])])]

/-- The spec map of `sampleDC`. -/
def sampleSpec : JObj :=
  [("replicas", .vInt 3),
   ("selector", .vObj
     [("app", .vStr "test-app"), ("deploymentconfig", .vStr "test-dc")]),
   ("template", .vObj
     [("metadata", .vObj
       [("labels", .vObj
         [("app", .vStr "test-app"), ("deploymentconfig", .vStr "test-dc")])]),
      ("spec", .vObj
       [("containers", .vArr
         [.vObj [("name", .vStr "test-container"),
                 ("image", .vStr "test-image:latest")]])])]),
   ("strategy", .vObj
     [("type", .vStr "Rolling"),
      ("rollingParams", .vObj [("maxUnavailable", .vStr "25%")])])]

/-! ## Claim theorems -/

/-- C5: for every source spec lacking a `replicas` field the replicas step
succeeds and writes `spec.replicas == 1` to the target, and when
`replicas` is present as an integer it is written verbatim.  The
hypothesis on the deployment object under construction (its `spec` entry
is either not yet present or a map) holds at the call site inside
`convertSpec`. -/
theorem claim5_default_replicas (spec dep : JObj)
    (hdep : objGet dep "spec" = none ∨ ∃ sm, objGet dep "spec" = some (.vObj sm)) :
    (nestedInt64 spec ["replicas"] = .absent →
      ∃ d, setReplicas spec dep = .ok d ∧
        nestedField d ["spec", "replicas"] = .found (.vInt 1)) ∧
    (∀ n : Int, nestedInt64 spec ["replicas"] = .found n →
      ∃ d, setReplicas spec dep = .ok d ∧
        nestedField d ["spec", "replicas"] = .found (.vInt n)) := by
  have main : ∀ v : JValue, ∃ d,
      setNestedField dep v ["spec", "replicas"] = .ok d ∧
      nestedField d ["spec", "replicas"] = .found v := by
    intro v
    rcases hdep with hd | ⟨sm, hd⟩
    · refine ⟨objSet dep "spec" (.vObj (objSet [] "replicas" v)), ?_, ?_⟩
      · simp [setNestedField, hd]
      · rw [nestedField, nestedFieldAux, objGet_objSet_self]
        simp [nestedFieldAux, objGet_objSet_self]
    · refine ⟨objSet dep "spec" (.vObj (objSet sm "replicas" v)), ?_, ?_⟩
      · simp [setNestedField, hd]
      · rw [nestedField, nestedFieldAux, objGet_objSet_self]
        simp [nestedFieldAux, objGet_objSet_self]
  refine ⟨fun h => ?_, fun n h => ?_⟩
  · obtain ⟨d, h1, h2⟩ := main (.vInt 1)
    exact ⟨d, by simp [setReplicas, h, h1], h2⟩
  · obtain ⟨d, h1, h2⟩ := main (.vInt n)
    exact ⟨d, by simp [setReplicas, h, h1], h2⟩

/-- C5 witness: a spec without `replicas` run against the fresh deployment
shell defaults to 1. -/
theorem claim5_witness :
    ∃ d, setReplicas [("paused", .vBool true)] newDeploymentBase = .ok d ∧
      nestedField d ["spec", "replicas"] = .found (.vInt 1) :=
  (claim5_default_replicas [("paused", .vBool true)] newDeploymentBase
    (Or.inl rfl)).1 rfl

/-- C2: a source lacking the metadata subtree, the selector map, or the
template map makes the transform return the corresponding missing-field
error; the Go function returns `(nil, err)` on every error path, which the
`Except` result captures — an error value excludes any target document.
The selector and template parts assume the steps that run before them
succeed (in particular `replicas` is absent or an integer), matching the
spec's stance that a wrong-kinded value elsewhere is reported the same way
as a missing field, just for that other field. -/
theorem claim2_missing_required_fields (dc : JObj) (p : Policy) (now : String) :
    (nestedMap dc ["metadata"] = .absent →
      convertDCtoDeployment dc p now =
        .error "failed to copy metadata: metadata not found in DeploymentConfig") ∧
    (∀ meta spec r, nestedMap dc ["metadata"] = .found meta →
      nestedMap dc ["spec"] = .found spec → replicasCase spec r →
      nestedMap spec ["selector"] = .absent →
      convertDCtoDeployment dc p now =
        .error "failed to convert spec: failed to set selector: selector not found in DeploymentConfig spec") ∧
    (∀ meta spec r sel, nestedMap dc ["metadata"] = .found meta →
      nestedMap dc ["spec"] = .found spec → replicasCase spec r →
      nestedMap spec ["selector"] = .found sel →
      nestedMap spec ["template"] = .absent →
      convertDCtoDeployment dc p now =
        .error "failed to convert spec: failed to set template: template not found in DeploymentConfig spec") := by
  refine ⟨fun hm => ?_, fun meta spec r hm hs hr hsel => ?_,
    fun meta spec r sel hm hs hr hsel htm => ?_⟩
  · exact convert_eval_metadata_absent dc p now hm
  · exact convert_eval_selector_absent dc p now meta spec r hm hs hr hsel
  · exact convert_eval_template_absent dc p now meta spec r sel hm hs hr hsel htm

/-- C2 witness: a concrete document with metadata and template but no
selector aborts with the selector missing-field error. -/
theorem claim2_witness :
    convertDCtoDeployment
      [("metadata", .vObj [("name", .vStr "demo")]),
       ("spec", .vObj [("template", .vObj [])])]
      defaultPolicy "2024-08-16T08:47:03-05:00" =
      .error "failed to convert spec: failed to set selector: selector not found in DeploymentConfig spec" :=
  (claim2_missing_required_fields
    [("metadata", .vObj [("name", .vStr "demo")]),
     ("spec", .vObj [("template", .vObj [])])]
    defaultPolicy "2024-08-16T08:47:03-05:00").2.1
    [("name", .vStr "demo")] [("template", .vObj [])] 1
    rfl rfl (Or.inl ⟨rfl, rfl⟩) rfl

/-- A DeploymentConfig whose metadata map is present but has no `name`
entry. -/
def dcNoName : JObj := [("metadata", .vObj [("foo", .vStr "bar")])]

/-- C6 counterexample: the claim says a source metadata mapping lacking a
`name` field makes the metadata step return a hard missing-field error,
but `copyMetadata` only checks that the metadata subtree itself exists: on
a metadata map without `name` it succeeds, emitting `name: null` (the Go
map read of a missing key yields `nil`). -/
theorem claim6_counterexample :
    copyMetadata dcNoName newDeploymentBase defaultPolicy
      "2024-08-16T08:47:03-05:00" =
      .ok [("apiVersion", .vStr "apps/v1"), ("kind", .vStr "Deployment"),
           ("metadata", .vObj
             [("name", .vNull), ("namespace", .vNull),
              ("annotations", .vObj
                [(generatedByKey, .vStr generatedByValue),
                 (migrationTimestampKey,
                  .vStr "2024-08-16T08:47:03-05:00")])])] := rfl

/-- C6 amended: `copyMetadata` returns the hard missing-field error
exactly when the metadata subtree is absent; a present metadata map
lacking `name` succeeds, with `name` bound to null in the output. -/
theorem claim6_metadata_requirement (dc dep : JObj) (p : Policy) (now : String) :
    (nestedMap dc ["metadata"] = .absent →
      copyMetadata dc dep p now = .error "metadata not found in DeploymentConfig") ∧
    (∀ meta, nestedMap dc ["metadata"] = .found meta → objGet meta "name" = none →
      ∃ d, copyMetadata dc dep p now = .ok d ∧
        nestedField d ["metadata", "name"] = .found .vNull) := by
  refine ⟨fun hm => ?_, fun meta hm hname => ?_⟩
  · simp [copyMetadata, hm]
  · refine ⟨objSet dep "metadata" (.vObj (sanitizeMetadata meta p now)), ?_, ?_⟩
    · simp [copyMetadata, hm, setNestedMap, setNestedField]
    · rw [nestedField, nestedFieldAux, objGet_objSet_self]
      have h1 : objGet (sanitizeMetadata meta p now) "name" = some .vNull := by
        rw [sanitizeMetadata_get_ne meta p now "name" (by decide),
          withLabels_get_ne meta p "name" (by decide),
          baseMetadata_get_name, jGetD, hname]
        rfl
      simp [nestedFieldAux, h1]

/-- C6 amended witness: at `dcNoName` the success branch applies. -/
theorem claim6_witness :
    ∃ d, copyMetadata dcNoName newDeploymentBase defaultPolicy
        "2024-08-16T08:47:03-05:00" = .ok d ∧
      nestedField d ["metadata", "name"] = .found .vNull :=
  (claim6_metadata_requirement dcNoName newDeploymentBase defaultPolicy
    "2024-08-16T08:47:03-05:00").2 [("foo", .vStr "bar")] rfl rfl

/-- C4: whenever the metadata subtree is present, the metadata step
succeeds and the output annotations always contain the provenance marker
and the migration timestamp; with `preserveAnnotations` false the output
annotations are exactly the two injected entries, and with it true every
other key reads as the source annotations map (treated as empty when not
present as a map) minus the strip-key set. -/
theorem claim4_annotation_injection (dc dep : JObj) (p : Policy) (now : String)
    (meta : JObj) (hm : nestedMap dc ["metadata"] = .found meta) :
    ∃ d, copyMetadata dc dep p now = .ok d ∧
      nestedField d ["metadata", "annotations"] =
        .found (.vObj (annotationsOf meta p now)) ∧
      objGet (annotationsOf meta p now) generatedByKey =
        some (.vStr generatedByValue) ∧
      objGet (annotationsOf meta p now) migrationTimestampKey =
        some (.vStr now) ∧
      (p.preserveAnnotations = false →
        annotationsOf meta p now =
          [(generatedByKey, .vStr generatedByValue),
           (migrationTimestampKey, .vStr now)]) ∧
      (p.preserveAnnotations = true →
        ∀ k, k ≠ generatedByKey → k ≠ migrationTimestampKey →
          objGet (annotationsOf meta p now) k =
            match objGet meta "annotations" with
            | some (.vObj src) =>
                if contains p.dcSpecificAnnotations k then none else objGet src k
            | _ => none) := by
  refine ⟨objSet dep "metadata" (.vObj (sanitizeMetadata meta p now)),
    ?_, ?_, annotationsOf_get_gen meta p now, annotationsOf_get_ts meta p now,
    fun hp => ?_, fun hp k hk1 hk2 => ?_⟩
  · simp [copyMetadata, hm, setNestedMap, setNestedField]
  · rw [nestedField, nestedFieldAux, objGet_objSet_self]
    simp [nestedFieldAux, sanitizeMetadata_get_annotations]
  · simp only [annotationsOf, sourceAnnotations, hp, Bool.false_eq_true, if_false]
    rfl
  · rw [annotationsOf_get_other meta p now k hk1 hk2]
    simp only [sourceAnnotations, hp, if_true]
    cases ha : objGet meta "annotations" with
    | none => rfl
    | some v =>
        cases v with
        | vObj src => exact objGet_filter_strip p.dcSpecificAnnotations src k
        | vNull => rfl
        | vBool b => rfl
        | vInt n => rfl
        | vStr s => rfl
        | vArr xs => rfl

/-- C4 witness: at `sampleDC`'s metadata with the default policy, the
conversion annotations keep `team`, drop the phase annotation, and carry
the two injected entries. -/
theorem claim4_witness :
    ∃ d, copyMetadata sampleDC newDeploymentBase defaultPolicy
        "2024-08-16T08:47:03-05:00" = .ok d ∧
      nestedField d ["metadata", "annotations"] =
        .found (.vObj (annotationsOf
          [("name", .vStr "test-dc"), ("namespace", .vStr "test-namespace"),
           ("labels", .vObj
             [("app", .vStr "test-app"),
              ("openshift.io/deployment-config.name", .vStr "test-dc")]),
           ("annotations", .vObj
             [("team", .vStr "payments"),
              ("openshift.io/deployment.phase", .vStr "Complete")])]
          defaultPolicy "2024-08-16T08:47:03-05:00")) := by
  obtain ⟨d, h1, h2, _⟩ := claim4_annotation_injection sampleDC newDeploymentBase
    defaultPolicy "2024-08-16T08:47:03-05:00"
    [("name", .vStr "test-dc"), ("namespace", .vStr "test-namespace"),
     ("labels", .vObj
       [("app", .vStr "test-app"),
        ("openshift.io/deployment-config.name", .vStr "test-dc")]),
     ("annotations", .vObj
       [("team", .vStr "payments"),
        ("openshift.io/deployment.phase", .vStr "Complete")])] rfl
  exact ⟨d, h1, h2⟩

/-- C8: whenever the metadata subtree is present, the metadata step
succeeds and the output labels behave as follows: with `preserveLabels`
false the labels field is omitted; with it true and the source labels
present as a map, the output labels are the source labels minus the
strip-key set, omitted entirely when that filtered map is empty; a source
without a labels map also yields no labels field. -/
theorem claim8_label_preservation (dc dep : JObj) (p : Policy) (now : String)
    (meta : JObj) (hm : nestedMap dc ["metadata"] = .found meta) :
    ∃ d, copyMetadata dc dep p now = .ok d ∧
      (p.preserveLabels = false →
        nestedField d ["metadata", "labels"] = .absent) ∧
      (p.preserveLabels = true → objGet meta "labels" = none →
        nestedField d ["metadata", "labels"] = .absent) ∧
      (∀ ls, p.preserveLabels = true → objGet meta "labels" = some (.vObj ls) →
        (∀ k, objGet (ls.filter (fun kv => !(contains p.dcSpecificLabels kv.1))) k =
            if contains p.dcSpecificLabels k then none else objGet ls k) ∧
        (ls.filter (fun kv => !(contains p.dcSpecificLabels kv.1)) = [] →
          nestedField d ["metadata", "labels"] = .absent) ∧
        (ls.filter (fun kv => !(contains p.dcSpecificLabels kv.1)) ≠ [] →
          nestedField d ["metadata", "labels"] =
            .found (.vObj (ls.filter (fun kv => !(contains p.dcSpecificLabels kv.1)))))) := by
  have hfield : ∀ x, objGet (withLabels meta p) "labels" = x →
      nestedField (objSet dep "metadata" (.vObj (sanitizeMetadata meta p now)))
        ["metadata", "labels"] =
        match x with
        | none => .absent
        | some v => .found v := by
    intro x hx
    rw [nestedField, nestedFieldAux, objGet_objSet_self]
    have h2 : objGet (sanitizeMetadata meta p now) "labels" = x := by
      rw [sanitizeMetadata_get_ne meta p now "labels" (by decide)]
      exact hx
    simp [nestedFieldAux, h2]
  refine ⟨objSet dep "metadata" (.vObj (sanitizeMetadata meta p now)),
    ?_, fun hp => ?_, fun hp hl => ?_, fun ls hp hl => ?_⟩
  · simp [copyMetadata, hm, setNestedMap, setNestedField]
  · refine hfield none ?_
    unfold withLabels
    simp [hp, baseMetadata_get_labels]
  · refine hfield none ?_
    unfold withLabels
    simp [hp, hl, baseMetadata_get_labels]
  · refine ⟨fun k => objGet_filter_strip p.dcSpecificLabels ls k, fun hfl => ?_, fun hfl => ?_⟩
    · refine hfield none ?_
      unfold withLabels
      simp [hp, hl, hfl, baseMetadata_get_labels]
    · refine hfield (some (.vObj (ls.filter (fun kv => !(contains p.dcSpecificLabels kv.1))))) ?_
      unfold withLabels
      have hlen : (ls.filter (fun kv => !(contains p.dcSpecificLabels kv.1))).length > 0 := by
        cases hc : ls.filter (fun kv => !(contains p.dcSpecificLabels kv.1)) with
        | nil => exact absurd hc hfl
        | cons a l => simp
      simp [hp, hl, hlen, objGet_objSet_self]

/-- C8 witness: at `sampleDC`'s metadata with the default policy, the
output labels keep `app` and drop the DC-specific label key. -/
theorem claim8_witness :
    ∃ d, copyMetadata sampleDC newDeploymentBase defaultPolicy
        "2024-08-16T08:47:03-05:00" = .ok d ∧
      nestedField d ["metadata", "labels"] =
        .found (.vObj [("app", .vStr "test-app")]) := by
  obtain ⟨d, h1, _, _, h4⟩ := claim8_label_preservation sampleDC newDeploymentBase
    defaultPolicy "2024-08-16T08:47:03-05:00"
    [("name", .vStr "test-dc"), ("namespace", .vStr "test-namespace"),
     ("labels", .vObj
       [("app", .vStr "test-app"),
        ("openshift.io/deployment-config.name", .vStr "test-dc")]),
     ("annotations", .vObj
       [("team", .vStr "payments"),
        ("openshift.io/deployment.phase", .vStr "Complete")])] rfl
  obtain ⟨_, _, h5⟩ := h4
    [("app", .vStr "test-app"),
     ("openshift.io/deployment-config.name", .vStr "test-dc")] rfl rfl
  refine ⟨d, h1, ?_⟩
  rw [h5 (fun h => List.noConfusion h)]
  rfl

/-! ## Spec-side predicate definitions (claim C9)

These follow the spec's wording for the four predicate extractors; the
claim is settled by comparing them with the code-side functions. -/

/-- Modelled from the spec: `spec.triggers` is a non-empty sequence. -/
def specHasTriggers (dc : JObj) : Bool :=
  match nestedField dc ["spec", "triggers"] with
  | .found (.vArr xs) => !xs.isEmpty
  | _ => false

/-- Modelled from the spec: the path is present, whatever the value
("value presence, not truthiness"). -/
def presentAt (dc : JObj) (fields : List String) : Bool :=
  match nestedField dc fields with
  | .found _ => true
  | _ => false

/-- Modelled from the spec: any of `spec.strategy.recreateParams.pre`,
`.mid`, `.post` is present. -/
def specHasLifecycleHooksPresence (dc : JObj) : Bool :=
  presentAt dc ["spec", "strategy", "recreateParams", "pre"] ||
  presentAt dc ["spec", "strategy", "recreateParams", "mid"] ||
  presentAt dc ["spec", "strategy", "recreateParams", "post"]

/-- The path is present with a map value — the condition `NestedMap`'s
found flag actually reports. -/
def mapPresentAt (dc : JObj) (fields : List String) : Bool :=
  match nestedField dc fields with
  | .found (.vObj _) => true
  | _ => false

/-- Modelled from the spec: `spec.strategy.rollingParams.autoRollbackEnabled`
is present and boolean-true. -/
def specHasAutoRollback (dc : JObj) : Bool :=
  match nestedField dc ["spec", "strategy", "rollingParams", "autoRollbackEnabled"] with
  | .found (.vBool b) => b
  | _ => false

/-- Modelled from the spec: `spec.strategy.type` equals exactly
`"Custom"`. -/
def specUsesCustomStrategy (dc : JObj) : Bool :=
  match nestedField dc ["spec", "strategy", "type"] with
  | .found (.vStr s) => s = "Custom"
  | _ => false

/-- A document whose `pre` hook is present but is not a map: the claim
says presence alone makes `HasLifecycleHooks` true. -/
def hookPresenceDoc : JObj :=
  [("spec", .vObj
    [("strategy", .vObj
      [("recreateParams", .vObj [("pre", .vBool true)])])])]

/-- C9 counterexample: `spec.strategy.recreateParams.pre` is present in
`hookPresenceDoc` (so the claim's "present, not truthiness" condition
holds), yet `hasLifecycleHooks` returns false, because the code probes the
hooks with `NestedMap`, whose found flag is true only for map values. -/
theorem claim9_counterexample :
    specHasLifecycleHooksPresence hookPresenceDoc = true ∧
    hasLifecycleHooks hookPresenceDoc = false := ⟨rfl, rfl⟩

/-- C9 amended: each extractor returns false on any missing intermediate
path and never signals an error (the embedded functions are total and
Boolean); `hasTriggers`, `hasAutoRollbacks` and `usesCustomStrategies`
coincide with their spec-side definitions exactly, while
`hasLifecycleHooks` is true iff one of the three hook paths is present
*as a map* (a hook object), not merely present. -/
theorem claim9_predicate_extractors (dc : JObj) :
    hasTriggers dc = specHasTriggers dc ∧
    hasLifecycleHooks dc =
      (mapPresentAt dc ["spec", "strategy", "recreateParams", "pre"] ||
       mapPresentAt dc ["spec", "strategy", "recreateParams", "mid"] ||
       mapPresentAt dc ["spec", "strategy", "recreateParams", "post"]) ∧
    hasAutoRollbacks dc = specHasAutoRollback dc ∧
    usesCustomStrategies dc = specUsesCustomStrategy dc := by
  have hmap : ∀ fs, (match nestedMap dc fs with
      | .found _ => true
      | _ => false) = mapPresentAt dc fs := by
    intro fs
    unfold nestedMap mapPresentAt
    cases nestedField dc fs with
    | err e => rfl
    | absent => rfl
    | found v => cases v <;> rfl
  refine ⟨?_, ?_, ?_, ?_⟩
  · unfold hasTriggers nestedSlice specHasTriggers
    cases hx : nestedField dc ["spec", "triggers"] with
    | err e => rfl
    | absent => rfl
    | found v =>
        cases v with
        | vArr xs => cases xs <;> simp
        | vNull => rfl
        | vBool b => rfl
        | vInt n => rfl
        | vStr s => rfl
        | vObj m => rfl
  · unfold hasLifecycleHooks
    rw [← hmap, ← hmap, ← hmap]
  · unfold hasAutoRollbacks nestedBool specHasAutoRollback
    cases hx : nestedField dc ["spec", "strategy", "rollingParams", "autoRollbackEnabled"] with
    | err e => rfl
    | absent => rfl
    | found v =>
        cases v with
        | vBool b => cases b <;> rfl
        | vNull => rfl
        | vInt n => rfl
        | vStr s => rfl
        | vArr xs => rfl
        | vObj m => rfl
  · unfold usesCustomStrategies nestedString specUsesCustomStrategy
    cases hx : nestedField dc ["spec", "strategy", "type"] with
    | err e => rfl
    | absent => rfl
    | found v =>
        cases v with
        | vStr s => rfl
        | vNull => rfl
        | vBool b => rfl
        | vInt n => rfl
        | vArr xs => rfl
        | vObj m => rfl

/-! ## Path lemmas on the assembled target -/

theorem assemble_metadata_path (meta : JObj) (p : Policy) (now : String)
    (r : Int) (sel tmpl : JObj) (strat : Option JObj) (fs : List String) :
    nestedField (assembleTarget meta p now r sel tmpl strat) ("metadata" :: fs) =
      nestedFieldAux (.vObj (sanitizeMetadata meta p now)) fs := rfl

theorem assemble_selector_path (meta : JObj) (p : Policy) (now : String)
    (r : Int) (sel tmpl : JObj) (strat : Option JObj) (fs : List String) :
    nestedField (assembleTarget meta p now r sel tmpl strat)
        ("spec" :: "selector" :: "matchLabels" :: fs) =
      nestedFieldAux (.vObj (objDel sel legacyKey)) fs := rfl

theorem assemble_template_path (meta : JObj) (p : Policy) (now : String)
    (r : Int) (sel tmpl : JObj) (strat : Option JObj) (fs : List String) :
    nestedField (assembleTarget meta p now r sel tmpl strat)
        ("spec" :: "template" :: fs) =
      nestedFieldAux (.vObj (stripTemplate tmpl)) fs := rfl

theorem assemble_strategy_absent (meta : JObj) (p : Policy) (now : String)
    (r : Int) (sel tmpl : JObj) :
    nestedField (assembleTarget meta p now r sel tmpl none)
        ["spec", "strategy"] = .absent := rfl

theorem assemble_strategy_path (meta : JObj) (p : Policy) (now : String)
    (r : Int) (sel tmpl strat : JObj) (fs : List String) :
    nestedField (assembleTarget meta p now r sel tmpl (some strat))
        ("spec" :: "strategy" :: fs) =
      nestedFieldAux (.vObj (deploymentStrategyOf strat)) fs := rfl

/-- C1: for a successful conversion, an absent source strategy map yields
a target with no `spec.strategy` at all; a `Rolling` strategy yields type
`RollingUpdate` with `maxUnavailable`/`maxSurge` each mirrored from the
source rolling parameters (equal lookups — copied iff present — and no
other key); a `Recreate` strategy yields exactly `{type: Recreate}`; any
other type value yields exactly `{type: RollingUpdate}`. -/
theorem claim1_strategy_mapping (dc : JObj) (p : Policy) (now : String)
    (t spec : JObj)
    (h : convertDCtoDeployment dc p now = .ok t)
    (hs : nestedMap dc ["spec"] = .found spec) :
    (nestedMap spec ["strategy"] = .absent →
      nestedField t ["spec", "strategy"] = .absent) ∧
    (∀ strat, nestedMap spec ["strategy"] = .found strat →
      (strategyTypeOf strat = "Rolling" →
        ∃ ds, nestedField t ["spec", "strategy"] = .found (.vObj ds) ∧
          objGet ds "type" = some (.vStr "RollingUpdate") ∧
          ∀ rp, objGet strat "rollingParams" = some (.vObj rp) →
            ∃ ru, objGet ds "rollingUpdate" = some (.vObj ru) ∧
              objGet ru "maxUnavailable" = objGet rp "maxUnavailable" ∧
              objGet ru "maxSurge" = objGet rp "maxSurge" ∧
              ∀ k, k ≠ "maxUnavailable" → k ≠ "maxSurge" → objGet ru k = none) ∧
      (strategyTypeOf strat = "Recreate" →
        nestedField t ["spec", "strategy"] =
          .found (.vObj [("type", .vStr "Recreate")])) ∧
      (strategyTypeOf strat ≠ "Rolling" → strategyTypeOf strat ≠ "Recreate" →
        nestedField t ["spec", "strategy"] =
          .found (.vObj [("type", .vStr "RollingUpdate")]))) := by
  obtain ⟨meta, spec', r, sel, tmpl, hm', hs', hr', hsel', htm', hcase⟩ :=
    convert_ok_cases dc p now t h
  have hspec : spec' = spec := by
    rw [hs] at hs'
    exact (Nested.found.inj hs').symm
  subst hspec
  constructor
  · intro hstAbs
    rcases hcase with ⟨hst, ht⟩ | ⟨strat, hst, ht⟩
    · subst ht
      exact assemble_strategy_absent meta p now r sel tmpl
    · rw [hstAbs] at hst
      exact Nested.noConfusion hst
  · intro strat hstF
    rcases hcase with ⟨hst, ht⟩ | ⟨strat', hst, ht⟩
    · rw [hstF] at hst
      exact absurd hst (by simp)
    · have hstrat : strat = strat' := Nested.found.inj (hstF.symm.trans hst)
      subst hstrat
      subst ht
      have hfield := assemble_strategy_path meta p now r sel tmpl strat []
      refine ⟨fun hroll => ?_, fun hrec => ?_, fun hnr1 hnr2 => ?_⟩
      · refine ⟨deploymentStrategyOf strat, hfield, ?_, fun rp hrp => ?_⟩
        · unfold deploymentStrategyOf
          rw [if_pos hroll]
          cases hx : objGet strat "rollingParams" with
          | none => rfl
          | some v =>
              cases v with
              | vObj rp =>
                  rw [objGet_objSet_ne _ _ _ _ (by decide)]
                  rfl
              | vNull => rfl
              | vBool b => rfl
              | vInt n => rfl
              | vStr s => rfl
              | vArr xs => rfl
        · refine ⟨rollingUpdateOf rp, ?_,
            rollingUpdateOf_get_mu rp, rollingUpdateOf_get_ms rp,
            fun k hk1 hk2 => rollingUpdateOf_get_other rp k hk1 hk2⟩
          unfold deploymentStrategyOf
          rw [if_pos hroll, hrp]
          exact objGet_objSet_self _ _ _
      · have hds : deploymentStrategyOf strat = [("type", .vStr "Recreate")] := by
          unfold deploymentStrategyOf
          rw [if_neg (by rw [hrec]; decide), if_pos hrec]
        rw [hds] at hfield
        exact hfield
      · have hds : deploymentStrategyOf strat = [("type", .vStr "RollingUpdate")] := by
          unfold deploymentStrategyOf
          rw [if_neg hnr1, if_neg hnr2]
        rw [hds] at hfield
        exact hfield

/-- C1 witness: converting `sampleDC` (a Rolling strategy whose
rollingParams hold only `maxUnavailable`) produces a strategy of type
`RollingUpdate` whose `rollingUpdate` mirrors the parameters. -/
theorem claim1_witness :
    ∃ ds, (match convertDCtoDeployment sampleDC defaultPolicy
        "2024-08-16T08:47:03-05:00" with
      | .ok t => nestedField t ["spec", "strategy"]
      | .error e => .err e) = .found (.vObj ds) ∧
      objGet ds "type" = some (.vStr "RollingUpdate") ∧
      ∃ ru, objGet ds "rollingUpdate" = some (.vObj ru) ∧
        objGet ru "maxUnavailable" = some (.vStr "25%") ∧
        objGet ru "maxSurge" = none := by
  obtain ⟨t, ht⟩ : ∃ t, convertDCtoDeployment sampleDC defaultPolicy
      "2024-08-16T08:47:03-05:00" = .ok t := ⟨_, rfl⟩
  obtain ⟨-, h2⟩ := claim1_strategy_mapping sampleDC defaultPolicy
    "2024-08-16T08:47:03-05:00" t sampleSpec ht rfl
  obtain ⟨ds, hds, hty, hru⟩ := (h2
    [("type", .vStr "Rolling"),
     ("rollingParams", .vObj [("maxUnavailable", .vStr "25%")])] rfl).1 rfl
  obtain ⟨ru, hru1, hru2, hru3, -⟩ :=
    hru [("maxUnavailable", .vStr "25%")] rfl
  refine ⟨ds, ?_, hty, ru, hru1, ?_, ?_⟩
  · rw [ht]
    exact hds
  · rw [hru2]
    rfl
  · rw [hru3]
    rfl

/-- C10: for a successful conversion of a `Rolling` strategy, the
`rollingUpdate` sub-object tracks the presence of the source
`rollingParams` map, not of its parameters: an empty-but-present
`rollingParams` map yields `rollingUpdate: {}` while an absent
`rollingParams` yields no `rollingUpdate` key. -/
theorem claim10_rollingUpdate_presence (dc : JObj) (p : Policy) (now : String)
    (t spec strat : JObj)
    (h : convertDCtoDeployment dc p now = .ok t)
    (hs : nestedMap dc ["spec"] = .found spec)
    (hst : nestedMap spec ["strategy"] = .found strat)
    (hroll : strategyTypeOf strat = "Rolling") :
    (∀ rp, objGet strat "rollingParams" = some (.vObj rp) →
      objGet rp "maxUnavailable" = none → objGet rp "maxSurge" = none →
      nestedField t ["spec", "strategy", "rollingUpdate"] = .found (.vObj [])) ∧
    (objGet strat "rollingParams" = none →
      nestedField t ["spec", "strategy", "rollingUpdate"] = .absent) := by
  obtain ⟨meta, spec', r, sel, tmpl, hm', hs', hr', hsel', htm', hcase⟩ :=
    convert_ok_cases dc p now t h
  have hspec : spec = spec' := Nested.found.inj (hs.symm.trans hs')
  subst hspec
  rcases hcase with ⟨hst', ht⟩ | ⟨strat', hst', ht⟩
  · rw [hst] at hst'
    exact Nested.noConfusion hst'
  have hstrat : strat = strat' := Nested.found.inj (hst.symm.trans hst')
  subst hstrat
  subst ht
  have hpath := assemble_strategy_path meta p now r sel tmpl strat ["rollingUpdate"]
  refine ⟨fun rp hrp hmu hms => ?_, fun habs => ?_⟩
  · have hds : deploymentStrategyOf strat =
        objSet [("type", .vStr "RollingUpdate")] "rollingUpdate"
          (.vObj (rollingUpdateOf rp)) := by
      unfold deploymentStrategyOf
      rw [if_pos hroll, hrp]
    have hruv : rollingUpdateOf rp = [] := by
      simp [rollingUpdateOf, hmu, hms]
    rw [hpath, hds, hruv]
    rfl
  · have hds : deploymentStrategyOf strat = [("type", .vStr "RollingUpdate")] := by
      unfold deploymentStrategyOf
      rw [if_pos hroll, habs]
    rw [hpath, hds]
    rfl

/-- A DeploymentConfig whose Rolling strategy carries an empty
`rollingParams` map. -/
def emptyRollingDC : JObj :=
  [("metadata", .vObj [("name", .vStr "rp-dc")]),
   ("spec", .vObj
     [("selector", .vObj [("app", .vStr "x")]),
      ("template", .vObj []),
      ("strategy", .vObj
        [("type", .vStr "Rolling"), ("rollingParams", .vObj [])])])]

/-- C10 witness: converting `emptyRollingDC` yields a `rollingUpdate` key
bound to an empty map. -/
theorem claim10_witness :
    (match convertDCtoDeployment emptyRollingDC defaultPolicy
        "2024-08-16T08:47:03-05:00" with
      | .ok t => nestedField t ["spec", "strategy", "rollingUpdate"]
      | .error e => .err e) = .found (.vObj []) := by
  obtain ⟨t, ht⟩ : ∃ t, convertDCtoDeployment emptyRollingDC defaultPolicy
      "2024-08-16T08:47:03-05:00" = .ok t := ⟨_, rfl⟩
  obtain ⟨h1, -⟩ := claim10_rollingUpdate_presence emptyRollingDC defaultPolicy
    "2024-08-16T08:47:03-05:00" t
    [("selector", .vObj [("app", .vStr "x")]),
     ("template", .vObj []),
     ("strategy", .vObj
       [("type", .vStr "Rolling"), ("rollingParams", .vObj [])])]
    [("type", .vStr "Rolling"), ("rollingParams", .vObj [])]
    ht rfl rfl rfl
  rw [ht]
  exact h1 [] rfl rfl rfl

theorem stripTemplate_get_ne (tmpl : JObj) (k : String) (h : k ≠ "metadata") :
    objGet (stripTemplate tmpl) k = objGet tmpl k := by
  unfold stripTemplate
  cases hmt : objGet tmpl "metadata" with
  | none => rfl
  | some v =>
      cases v with
      | vObj tm =>
          cases hl : objGet tm "labels" with
          | none => simp [hl]
          | some w =>
              cases w with
              | vObj ls =>
                  simp only [hl]
                  exact objGet_objSet_ne _ _ _ _ h
              | vNull => simp [hl]
              | vBool b => simp [hl]
              | vInt n => simp [hl]
              | vStr s => simp [hl]
              | vArr xs => simp [hl]
      | vNull => rfl
      | vBool b => rfl
      | vInt n => rfl
      | vStr s => rfl
      | vArr xs => rfl

/-- C3: for a successful conversion, the legacy linkage key never appears
under `spec.selector.matchLabels` nor under `spec.template.metadata.labels`
of the target, while every other selector entry, template-label entry, and
top-level template entry is carried over unchanged. -/
theorem claim3_legacy_key_stripping (dc : JObj) (p : Policy) (now : String)
    (t spec sel tmpl : JObj)
    (h : convertDCtoDeployment dc p now = .ok t)
    (hs : nestedMap dc ["spec"] = .found spec)
    (hsel : nestedMap spec ["selector"] = .found sel)
    (htm : nestedMap spec ["template"] = .found tmpl) :
    nestedField t ["spec", "selector", "matchLabels", legacyKey] = .absent ∧
    (∀ k, k ≠ legacyKey →
      nestedField t ["spec", "selector", "matchLabels", k] = nestedField sel [k]) ∧
    (∀ v, nestedField t ["spec", "template", "metadata", "labels", legacyKey] ≠
      .found v) ∧
    (∀ tm ls, objGet tmpl "metadata" = some (.vObj tm) →
      objGet tm "labels" = some (.vObj ls) →
      ∀ k, k ≠ legacyKey →
        nestedField t ["spec", "template", "metadata", "labels", k] =
          nestedField ls [k]) ∧
    (∀ k, k ≠ "metadata" →
      nestedField t ["spec", "template", k] = nestedField tmpl [k]) := by
  obtain ⟨meta, spec', r, sel', tmpl', hm', hs', hr', hsel', htm', hcase⟩ :=
    convert_ok_cases dc p now t h
  have hspec : spec = spec' := Nested.found.inj (hs.symm.trans hs')
  subst hspec
  have hselv : sel = sel' := Nested.found.inj (hsel.symm.trans hsel')
  subst hselv
  have htmv : tmpl = tmpl' := Nested.found.inj (htm.symm.trans htm')
  subst htmv
  have main : ∀ strat : Option JObj,
      nestedField (assembleTarget meta p now r sel tmpl strat)
          ["spec", "selector", "matchLabels", legacyKey] = .absent ∧
      (∀ k, k ≠ legacyKey →
        nestedField (assembleTarget meta p now r sel tmpl strat)
            ["spec", "selector", "matchLabels", k] = nestedField sel [k]) ∧
      (∀ v, nestedField (assembleTarget meta p now r sel tmpl strat)
          ["spec", "template", "metadata", "labels", legacyKey] ≠ .found v) ∧
      (∀ tm ls, objGet tmpl "metadata" = some (.vObj tm) →
        objGet tm "labels" = some (.vObj ls) →
        ∀ k, k ≠ legacyKey →
          nestedField (assembleTarget meta p now r sel tmpl strat)
              ["spec", "template", "metadata", "labels", k] =
            nestedField ls [k]) ∧
      (∀ k, k ≠ "metadata" →
        nestedField (assembleTarget meta p now r sel tmpl strat)
            ["spec", "template", k] = nestedField tmpl [k]) := by
    intro strat
    refine ⟨?_, fun k hk => ?_, fun v => ?_, fun tm ls hmt hl k hk => ?_,
      fun k hk => ?_⟩
    · rw [assemble_selector_path]
      simp [nestedFieldAux, objGet_objDel_self]
    · rw [assemble_selector_path]
      rw [nestedField, nestedFieldAux]
      simp only [nestedFieldAux, objGet_objDel_ne sel legacyKey k hk]
    · rw [assemble_template_path]
      unfold stripTemplate
      cases hmt : objGet tmpl "metadata" with
      | none => simp [nestedFieldAux, hmt]
      | some v2 =>
          cases v2 with
          | vObj tm =>
              cases hl : objGet tm "labels" with
              | none => simp [nestedFieldAux, hmt, hl]
              | some w =>
                  cases w with
                  | vObj ls =>
                      simp [nestedFieldAux, hl, objGet_objSet_self,
                        objGet_objDel_self]
                  | vNull => simp [nestedFieldAux, hmt, hl]
                  | vBool b => simp [nestedFieldAux, hmt, hl]
                  | vInt n => simp [nestedFieldAux, hmt, hl]
                  | vStr s => simp [nestedFieldAux, hmt, hl]
                  | vArr xs => simp [nestedFieldAux, hmt, hl]
          | vNull => simp [nestedFieldAux, hmt]
          | vBool b => simp [nestedFieldAux, hmt]
          | vInt n => simp [nestedFieldAux, hmt]
          | vStr s => simp [nestedFieldAux, hmt]
          | vArr xs => simp [nestedFieldAux, hmt]
    · rw [assemble_template_path]
      simp only [stripTemplate, hmt, hl]
      rw [nestedField, nestedFieldAux]
      simp only [nestedFieldAux, objGet_objSet_self,
        objGet_objDel_ne ls legacyKey k hk]
    · rw [assemble_template_path]
      rw [nestedField, nestedFieldAux]
      simp only [nestedFieldAux, stripTemplate_get_ne tmpl k hk]
  rcases hcase with ⟨hst', ht⟩ | ⟨strat', hst', ht⟩
  · subst ht
    exact main none
  · subst ht
    exact main (some strat')

/-- C3 witness: converting `sampleDC` (whose selector and template labels
both carry the legacy key) leaves no legacy key in the target while
keeping the `app` entries. -/
theorem claim3_witness :
    (match convertDCtoDeployment sampleDC defaultPolicy
        "2024-08-16T08:47:03-05:00" with
      | .ok t => nestedField t ["spec", "selector", "matchLabels", legacyKey]
      | .error e => .err e) = .absent ∧
    (match convertDCtoDeployment sampleDC defaultPolicy
        "2024-08-16T08:47:03-05:00" with
      | .ok t => nestedField t ["spec", "selector", "matchLabels", "app"]
      | .error e => .err e) = .found (.vStr "test-app") := by
  obtain ⟨t, ht⟩ : ∃ t, convertDCtoDeployment sampleDC defaultPolicy
      "2024-08-16T08:47:03-05:00" = .ok t := ⟨_, rfl⟩
  obtain ⟨h1, h2, -⟩ := claim3_legacy_key_stripping sampleDC defaultPolicy
    "2024-08-16T08:47:03-05:00" t sampleSpec
    [("app", .vStr "test-app"), ("deploymentconfig", .vStr "test-dc")]
    [("metadata", .vObj
      [("labels", .vObj
        [("app", .vStr "test-app"), ("deploymentconfig", .vStr "test-dc")])]),
     ("spec", .vObj
      [("containers", .vArr
        [.vObj [("name", .vStr "test-container"),
                ("image", .vStr "test-image:latest")]])])]
    ht rfl rfl rfl
  rw [ht]
  refine ⟨h1, ?_⟩
  show nestedField t ["spec", "selector", "matchLabels", "app"] =
    .found (.vStr "test-app")
  rw [h2 "app" (by decide)]
  rfl

/-! ## Claim C7: determinism and the wall-clock samples -/

/-- A target document with the migration-timestamp annotation removed:
everything the conversion produces apart from the one entry that carries a
wall-clock sample. -/
def scrubTarget (t : JObj) : JObj :=
  removeNestedField t ["metadata", "annotations", migrationTimestampKey]

theorem scrub_sanitize (meta : JObj) (p : Policy) (now : String) :
    removeNestedField (sanitizeMetadata meta p now)
        ["annotations", migrationTimestampKey] =
      objSet (withLabels meta p) "annotations"
        (.vObj (objDel
          (objSet (sourceAnnotations meta p) generatedByKey (.vStr generatedByValue))
          migrationTimestampKey)) := by
  have hg := sanitizeMetadata_get_annotations meta p now
  simp only [removeNestedField, hg]
  unfold sanitizeMetadata annotationsOf
  rw [objSet_objSet_self, objDel_objSet_self]

theorem scrub_assembleTarget (meta : JObj) (p : Policy) (now now' : String)
    (r : Int) (sel tmpl : JObj) (strat : Option JObj) :
    scrubTarget (assembleTarget meta p now r sel tmpl strat) =
      scrubTarget (assembleTarget meta p now' r sel tmpl strat) := by
  show objSet (assembleTarget meta p now r sel tmpl strat) "metadata"
      (.vObj (removeNestedField (sanitizeMetadata meta p now)
        ["annotations", migrationTimestampKey])) =
    objSet (assembleTarget meta p now' r sel tmpl strat) "metadata"
      (.vObj (removeNestedField (sanitizeMetadata meta p now')
        ["annotations", migrationTimestampKey]))
  rw [scrub_sanitize meta p now, scrub_sanitize meta p now']
  rfl

theorem convert_map_scrub_eq (dc : JObj) (p : Policy) (now now' : String) :
    Except.map scrubTarget (convertDCtoDeployment dc p now) =
      Except.map scrubTarget (convertDCtoDeployment dc p now') := by
  rcases hmx : nestedMap dc ["metadata"] with e | _ | meta
  · rw [convert_eval_metadata_err dc p now e hmx,
      convert_eval_metadata_err dc p now' e hmx]
  · rw [convert_eval_metadata_absent dc p now hmx,
      convert_eval_metadata_absent dc p now' hmx]
  rcases hsx : nestedMap dc ["spec"] with e | _ | spec
  · rw [convert_eval_spec_err dc p now meta e hmx hsx,
      convert_eval_spec_err dc p now' meta e hmx hsx]
  · rw [convert_eval_spec_absent dc p now meta hmx hsx,
      convert_eval_spec_absent dc p now' meta hmx hsx]
  have hrx : (∃ e, nestedInt64 spec ["replicas"] = .err e) ∨
      ∃ r, replicasCase spec r := by
    rcases hrr : nestedInt64 spec ["replicas"] with e | _ | r
    · exact Or.inl ⟨e, rfl⟩
    · exact Or.inr ⟨1, Or.inl ⟨hrr, rfl⟩⟩
    · exact Or.inr ⟨r, Or.inr hrr⟩
  rcases hrx with ⟨e, hrr⟩ | ⟨r, hr⟩
  · rw [convert_eval_replicas_err dc p now meta spec e hmx hsx hrr,
      convert_eval_replicas_err dc p now' meta spec e hmx hsx hrr]
  rcases hselx : nestedMap spec ["selector"] with e | _ | sel
  · rw [convert_eval_selector_err dc p now meta spec r e hmx hsx hr hselx,
      convert_eval_selector_err dc p now' meta spec r e hmx hsx hr hselx]
  · rw [convert_eval_selector_absent dc p now meta spec r hmx hsx hr hselx,
      convert_eval_selector_absent dc p now' meta spec r hmx hsx hr hselx]
  rcases htmx : nestedMap spec ["template"] with e | _ | tmpl
  · rw [convert_eval_template_err dc p now meta spec r sel e hmx hsx hr hselx htmx,
      convert_eval_template_err dc p now' meta spec r sel e hmx hsx hr hselx htmx]
  · rw [convert_eval_template_absent dc p now meta spec r sel hmx hsx hr hselx htmx,
      convert_eval_template_absent dc p now' meta spec r sel hmx hsx hr hselx htmx]
  rcases hstx : nestedMap spec ["strategy"] with e | _ | strat
  · rw [convert_eval_strategy_err dc p now meta spec r sel tmpl e hmx hsx hr hselx htmx hstx,
      convert_eval_strategy_err dc p now' meta spec r sel tmpl e hmx hsx hr hselx htmx hstx]
  · rw [convert_eval_ok_noStrategy dc p now meta spec r sel tmpl hmx hsx hr hselx htmx hstx,
      convert_eval_ok_noStrategy dc p now' meta spec r sel tmpl hmx hsx hr hselx htmx hstx]
    simp only [Except.map]
    exact congrArg Except.ok (scrub_assembleTarget meta p now now' r sel tmpl none)
  · rw [convert_eval_ok_strategy dc p now meta spec r sel tmpl strat hmx hsx hr hselx htmx hstx,
      convert_eval_ok_strategy dc p now' meta spec r sel tmpl strat hmx hsx hr hselx htmx hstx]
    simp only [Except.map]
    exact congrArg Except.ok
      (scrub_assembleTarget meta p now now' r sel tmpl (some strat))

/-- C7 counterexample: one concrete processing run in which the record's
timestamp and the target's migration-timestamp annotation are two
different instants — the record timestamp is sampled at converter.go line
80 and the annotation at line 182, two separate `time.Now()` calls
(modelled as the two explicit samples), so there is no single
caller-supplied `now` both values come from, contrary to the claim. -/
theorem claim7_counterexample :
    (processDC sampleDC defaultPolicy "test-namespace"
      "2024-08-16T08:47:03-05:00" "2024-08-16T08:47:04-05:00").1.Timestamp =
      "2024-08-16T08:47:03-05:00" ∧
    Except.map
      (fun t => nestedField t ["metadata", "annotations", migrationTimestampKey])
      (processDC sampleDC defaultPolicy "test-namespace"
        "2024-08-16T08:47:03-05:00" "2024-08-16T08:47:04-05:00").2 =
      .ok (.found (.vStr "2024-08-16T08:47:04-05:00")) ∧
    ("2024-08-16T08:47:03-05:00" : String) ≠ "2024-08-16T08:47:04-05:00" :=
  ⟨rfl, rfl, by decide⟩

/-- C7 amended: once each internal `time.Now()` sample is made an explicit
input, the per-DeploymentConfig processing is deterministic in its
explicit inputs: the record's timestamp is exactly the first sample, the
record apart from its timestamp does not depend on either sample, the
target's migration-timestamp annotation is exactly the second sample, and
the target apart from that annotation does not depend on either sample
(this also covers the error case: whether and how conversion fails is
independent of the samples). -/
theorem claim7_determinism (dc : JObj) (p : Policy) (ns ts1 ts2 ts1' ts2' : String) :
    (processDC dc p ns ts1 ts2).1.Timestamp = ts1 ∧
    { (processDC dc p ns ts1 ts2).1 with Timestamp := "" } =
      { (processDC dc p ns ts1' ts2').1 with Timestamp := "" } ∧
    (∀ t, (processDC dc p ns ts1 ts2).2 = .ok t →
      nestedField t ["metadata", "annotations", migrationTimestampKey] =
        .found (.vStr ts2)) ∧
    Except.map scrubTarget (processDC dc p ns ts1 ts2).2 =
      Except.map scrubTarget (processDC dc p ns ts1' ts2').2 := by
  refine ⟨rfl, rfl, fun t ht => ?_, convert_map_scrub_eq dc p ts2 ts2'⟩
  obtain ⟨meta, spec, r, sel, tmpl, hm', hs', hr', hsel', htm', hcase⟩ :=
    convert_ok_cases dc p ts2 t ht
  have hann : ∀ strat : Option JObj,
      nestedField (assembleTarget meta p ts2 r sel tmpl strat)
          ["metadata", "annotations", migrationTimestampKey] =
        .found (.vStr ts2) := by
    intro strat
    rw [assemble_metadata_path]
    simp [nestedFieldAux, sanitizeMetadata_get_annotations, annotationsOf_get_ts]
  rcases hcase with ⟨-, htv⟩ | ⟨strat, -, htv⟩
  · subst htv
    exact hann none
  · subst htv
    exact hann (some strat)

/-- C7 amended witness: the concrete run of `sampleDC` with two distinct
samples carries the second sample as its migration-timestamp annotation. -/
theorem claim7_witness :
    (match (processDC sampleDC defaultPolicy "test-namespace"
        "2024-08-16T08:47:03-05:00" "2024-08-16T08:47:04-05:00").2 with
      | .ok t => nestedField t ["metadata", "annotations", migrationTimestampKey]
      | .error e => .err e) =
      .found (.vStr "2024-08-16T08:47:04-05:00") := by
  obtain ⟨t, ht⟩ : ∃ t, (processDC sampleDC defaultPolicy "test-namespace"
      "2024-08-16T08:47:03-05:00" "2024-08-16T08:47:04-05:00").2 = .ok t :=
    ⟨_, rfl⟩
  have h3 := (claim7_determinism sampleDC defaultPolicy "test-namespace"
    "2024-08-16T08:47:03-05:00" "2024-08-16T08:47:04-05:00"
    "2024-08-16T08:47:05-05:00" "2024-08-16T08:47:06-05:00").2.2.1 t ht
  rw [ht]
  exact h3

end DCMigration
